import Mathlib

/-!
Verification of the reference-counted object pool manager
(`RefCounter` in `memroy_manager.py`).

The embedding models each Python method body as a pure state
transformer on a `RefCounter` record.  Every public method wraps its
whole body in `with self.lock`, so the main model treats each call as
one atomic step (the linearized semantics); the lock itself is modeled
separately and explicitly in the `Locked` section, where acquiring
`threading.Lock` while it is already held blocks forever
(`LockResult.blocked`), since Python's `threading.Lock` is not
reentrant.

Python dictionaries are modeled as insertion-ordered association
lists (`dlookup` / `dinsert` / `derase`), which matches dict iteration
order and in-place update semantics.  Python string comparison
(used by `reuse` on size-category names) is modeled faithfully as
lexicographic comparison of code points (`pyStrLt` / `pyStrGe`).
`print`-based logging is modeled as a list of structured events
appended in call order.
-/

namespace PerceusMM

/-- An object as the manager sees it: its identity (`id(obj)`), its
dynamic type name (`type(obj).__name__`) and its measured size
(`sys.getsizeof(obj)`); the spec's injected primitives are stable for
the object's lifetime, so they are carried as fields. -/
structure Obj where
  oid : Nat
  type_tag : String
  size : Nat
deriving DecidableEq

/-- Structured events, one per `self._log` / `print` call in the source. -/
inductive Event where
  | allocated (oid : Nat) (size : Nat)
  | refIncreased (oid : Nat) (count : Int)
  | refDecreased (oid : Nat) (count : Int)
  | notAllocated (oid : Nat)
  | dropped (oid : Nat) (size : Nat) (ty : String)
  | reused (oid : Nat)
  | noReuseCandidate
  | usageRead (value : Int)
deriving DecidableEq

/-- Lookup in an insertion-ordered association list (Python `d[k]` / `k in d`). -/
def dlookup {κ α : Type} [DecidableEq κ] : List (κ × α) → κ → Option α
  | [], _ => none
  | (k', v) :: rest, k => if k' = k then some v else dlookup rest k

/-- `d[k] = v`: update the existing key in place, else append at the end
(Python dict insertion-order semantics). -/
def dinsert {κ α : Type} [DecidableEq κ] : List (κ × α) → κ → α → List (κ × α)
  | [], k, v => [(k, v)]
  | (k', v') :: rest, k, v =>
      if k' = k then (k, v) :: rest else (k', v') :: dinsert rest k v

/-- `del d[k]`: remove the key. -/
def derase {κ α : Type} [DecidableEq κ] : List (κ × α) → κ → List (κ × α)
  | [], _ => []
  | (k', v) :: rest, k =>
      if k' = k then derase rest k else (k', v) :: derase rest k

/-- Python lexicographic string-less-than on code points. -/
def pyStrLtAux : List Char → List Char → Bool
  | [], [] => false
  | [], _ :: _ => true
  | _ :: _, [] => false
  | a :: as, b :: bs =>
      if a.val < b.val then true
      else if b.val < a.val then false
      else pyStrLtAux as bs

/-- Python `a >= b` on strings: `¬ (a < b)` lexicographically. -/
def pyStrGe (a b : String) : Bool := !(pyStrLtAux a.toList b.toList)

/-- `RefCounter._size_category`: `< 100 → "small"`, `< 1000 → "medium"`,
else `"large"`. -/
def size_category (size : Nat) : String :=
  if size < 100 then "small" else if size < 1000 then "medium" else "large"

/-- The manager's state: the two live tables, the bucketed free pool
(`defaultdict(list)` keyed by `(type name, size category)`), the running
`memory_usage` counter, and the emitted event log. -/
structure RefCounter where
  references : List (Nat × Int)
  objects : List (Nat × Obj)
  memory_pool : List ((String × String) × List Obj)
  memory_usage : Int
  events : List Event
deriving DecidableEq

/-- `RefCounter.__init__`: everything empty, usage zero. -/
def initRC : RefCounter :=
  { references := [], objects := [], memory_pool := [], memory_usage := 0, events := [] }

/-- `self.memory_pool[key].append(obj)` on a `defaultdict(list)`:
append to the existing bucket in place, or create the bucket at the end. -/
def poolAppend : List ((String × String) × List Obj) → (String × String) → Obj →
    List ((String × String) × List Obj)
  | [], k, x => [(k, [x])]
  | (k', v) :: rest, k, x =>
      if k' = k then (k', v ++ [x]) :: rest else (k', v) :: poolAppend rest k x

/-- `RefCounter.allocate`: add the size to `memory_usage`, set the
reference count to 1 and store the object, then log. -/
def allocate (st : RefCounter) (obj : Obj) : RefCounter :=
  { st with
    memory_usage := st.memory_usage + (obj.size : Int)
    references := dinsert st.references obj.oid 1
    objects := dinsert st.objects obj.oid obj
    events := st.events ++ [Event.allocated obj.oid obj.size] }

/-- `RefCounter.increase_ref`: increment if present, else report not allocated. -/
def increase_ref (st : RefCounter) (obj : Obj) : RefCounter :=
  match dlookup st.references obj.oid with
  | some c =>
      { st with
        references := dinsert st.references obj.oid (c + 1)
        events := st.events ++ [Event.refIncreased obj.oid (c + 1)] }
  | none => { st with events := st.events ++ [Event.notAllocated obj.oid] }

/-- `RefCounter.drop` body (the part guarded by `obj_id in self.references`):
log, subtract the size, delete from both tables, append to the bucket
`(type name, size category)`.  On an absent identity the method does
nothing at all (there is no `else` branch in the source). -/
def drop (st : RefCounter) (obj : Obj) : RefCounter :=
  match dlookup st.references obj.oid with
  | some _ =>
      { st with
        events := st.events ++ [Event.dropped obj.oid obj.size obj.type_tag]
        memory_usage := st.memory_usage - (obj.size : Int)
        references := derase st.references obj.oid
        objects := derase st.objects obj.oid
        memory_pool := poolAppend st.memory_pool (obj.type_tag, size_category obj.size) obj }
  | none => st

/-- `RefCounter.decrease_ref`: decrement if present, log the new count,
and when the new count equals zero invoke `drop`; on an absent identity
report not allocated.  This is the lock-elided body: it models the
internal `drop` as completing, which the source's non-reentrant lock
never allows — `decreaseRefLocked` and `decreaseRefSharedAtBlock`
below model that path faithfully.  On the paths that do not invoke the
internal `drop` (count not reaching zero, absent identity) there is no
nested acquisition and this definition is faithful. -/
def decrease_ref (st : RefCounter) (obj : Obj) : RefCounter :=
  match dlookup st.references obj.oid with
  | some c =>
      let st1 : RefCounter :=
        { st with
          references := dinsert st.references obj.oid (c - 1)
          events := st.events ++ [Event.refDecreased obj.oid (c - 1)] }
      if c - 1 = 0 then drop st1 obj else st1
  | none => { st with events := st.events ++ [Event.notAllocated obj.oid] }

/-- The scan loop of `RefCounter.reuse`: walk the buckets in insertion
order; on the first bucket whose type name matches `desired_type` (or
any, when unspecified), whose stored category-name string is `>=` the
requested category under Python string comparison, and whose list is
non-empty, `pop()` the last object; return the updated bucket list and
the popped object. -/
def reuseScan (buckets : List ((String × String) × List Obj))
    (tyName : Option String) (cat : String) :
    Option (List ((String × String) × List Obj) × Obj) :=
  match buckets with
  | [] => none
  | ((ot, cs), pool) :: rest =>
      if ((match tyName with | none => true | some t => decide (ot = t)) && pyStrGe cs cat) then
        match pool.getLast? with
        | some obj => some ((((ot, cs), pool.dropLast) :: rest), obj)
        | none =>
            match reuseScan rest tyName cat with
            | some (rest', obj) => some ((((ot, cs), pool) :: rest'), obj)
            | none => none
      else
        match reuseScan rest tyName cat with
        | some (rest', obj) => some ((((ot, cs), pool) :: rest'), obj)
        | none => none

/-- `RefCounter.reuse`: scan the pool; on success re-`allocate` the
popped object (which logs `Allocated`), log `Reused`, and return it;
otherwise log that nothing was available and return `None`.  This is
the lock-elided body: it models the internal `allocate` as completing,
which the source's non-reentrant lock never allows — `reuseLocked` and
`reuseSharedAtBlock` below model that path faithfully.  On the
no-candidate path there is no nested acquisition and this definition
is faithful. -/
def reuse (st : RefCounter) (desired_type : Option String) (min_size : Nat) :
    RefCounter × Option Obj :=
  match reuseScan st.memory_pool desired_type (size_category min_size) with
  | some (pool', obj) =>
      let st1 : RefCounter := { st with memory_pool := pool' }
      let st2 := allocate st1 obj
      ({ st2 with events := st2.events ++ [Event.reused obj.oid] }, some obj)
  | none => ({ st with events := st.events ++ [Event.noReuseCandidate] }, none)

/-- `RefCounter.get_memory_usage`: log and return the counter. -/
def get_memory_usage (st : RefCounter) : RefCounter × Int :=
  ({ st with events := st.events ++ [Event.usageRead st.memory_usage] }, st.memory_usage)

/-- One public API call. -/
inductive Op where
  | alloc (obj : Obj)
  | incRef (obj : Obj)
  | decRef (obj : Obj)
  | dropIt (obj : Obj)
  | reuseIt (desired_type : Option String) (min_size : Nat)
  | getUsage
deriving DecidableEq

/-- Apply one public call to the state (result values discarded). -/
def applyOp (st : RefCounter) : Op → RefCounter
  | Op.alloc o => allocate st o
  | Op.incRef o => increase_ref st o
  | Op.decRef o => decrease_ref st o
  | Op.dropIt o => drop st o
  | Op.reuseIt t m => (reuse st t m).1
  | Op.getUsage => (get_memory_usage st).1

/-- The state reached from the fresh manager by a sequence of public calls. -/
def run (ops : List Op) : RefCounter := ops.foldl applyOp initRC

/-- Sum of the sizes of the objects in the live-object table. -/
def liveSum (st : RefCounter) : Int :=
  st.objects.foldl (fun acc p => acc + (p.2.size : Int)) 0

/-- Number of entries of an association list carrying a given key. -/
def countKey {κ α : Type} [DecidableEq κ] : List (κ × α) → κ → Nat
  | [], _ => 0
  | (k', _) :: rest, k => (if k' = k then 1 else 0) + countKey rest k

/-- The contents of one free-pool bucket (empty when the key is absent). -/
def poolGet (st : RefCounter) (k : String × String) : List Obj :=
  (dlookup st.memory_pool k).getD []

/-!
The explicit lock model.  `self.lock` is a `threading.Lock`, which is
not reentrant: `with self.lock` while the same lock is already held
blocks forever.  Each method body is rerun here with the lock state
explicit; `LockResult.blocked` marks a call that never returns.
-/

/-- Outcome of a method call under the non-reentrant lock. -/
inductive LockResult where
  | blocked
  | done (st : RefCounter)
deriving DecidableEq

/-- `allocate` with the lock state explicit: its body starts with
`with self.lock`, so it blocks when the lock is already held. -/
def allocateLocked (lockHeld : Bool) (st : RefCounter) (obj : Obj) : LockResult :=
  if lockHeld then LockResult.blocked else LockResult.done (allocate st obj)

/-- `drop` with the lock state explicit. -/
def dropLocked (lockHeld : Bool) (st : RefCounter) (obj : Obj) : LockResult :=
  if lockHeld then LockResult.blocked else LockResult.done (drop st obj)

/-- `decrease_ref` with the lock state explicit: its body runs with the
lock held, and the internal `self.drop(obj)` call on reaching count zero
re-enters `with self.lock` while it is still held. -/
def decreaseRefLocked (lockHeld : Bool) (st : RefCounter) (obj : Obj) : LockResult :=
  if lockHeld then LockResult.blocked
  else
    match dlookup st.references obj.oid with
    | some c =>
        let st1 : RefCounter :=
          { st with
            references := dinsert st.references obj.oid (c - 1)
            events := st.events ++ [Event.refDecreased obj.oid (c - 1)] }
        if c - 1 = 0 then dropLocked true st1 obj else LockResult.done st1
    | none => LockResult.done { st with events := st.events ++ [Event.notAllocated obj.oid] }

/-- `reuse` with the lock state explicit: on finding a candidate it
calls `self.allocate` while still holding the lock. -/
def reuseLocked (lockHeld : Bool) (st : RefCounter)
    (desired_type : Option String) (min_size : Nat) : LockResult :=
  if lockHeld then LockResult.blocked
  else
    match reuseScan st.memory_pool desired_type (size_category min_size) with
    | some (pool', obj) =>
        match allocateLocked true { st with memory_pool := pool' } obj with
        | LockResult.blocked => LockResult.blocked
        | LockResult.done st2 =>
            LockResult.done { st2 with events := st2.events ++ [Event.reused obj.oid] }
    | none => LockResult.done { st with events := st.events ++ [Event.noReuseCandidate] }

/-- The contents of the manager's shared memory once a `decrease_ref`
call stops making progress.  When the decrement reaches zero the call
blocks forever inside the internal `drop`'s `with self.lock`: the
decrement and its `RefDecreased` log have been applied, and none of
`drop`'s effects (its log, the usage subtraction, the table removals,
the pool append) ever happen.  On a count not reaching zero, or on an
absent identity, the call completes and this is its final state. -/
def decreaseRefSharedAtBlock (st : RefCounter) (obj : Obj) : RefCounter :=
  match dlookup st.references obj.oid with
  | some c =>
      { st with
        references := dinsert st.references obj.oid (c - 1)
        events := st.events ++ [Event.refDecreased obj.oid (c - 1)] }
  | none => { st with events := st.events ++ [Event.notAllocated obj.oid] }

/-- The contents of the manager's shared memory once a `reuse` call
stops making progress.  When the scan finds a candidate the call
blocks forever inside the internal `allocate`'s `with self.lock`: the
bucket has been popped (`pool.pop()` already ran), and nothing else
has happened — no table update, no usage change, no log at all.  When
no candidate matches, the call completes with its one log. -/
def reuseSharedAtBlock (st : RefCounter) (desired_type : Option String) (min_size : Nat) :
    RefCounter :=
  match reuseScan st.memory_pool desired_type (size_category min_size) with
  | some (pool', _) => { st with memory_pool := pool' }
  | none => { st with events := st.events ++ [Event.noReuseCandidate] }

/-!  Association-list lemmas.  -/

theorem dlookup_dinsert_self {κ α : Type} [DecidableEq κ]
    (l : List (κ × α)) (k : κ) (v : α) : dlookup (dinsert l k v) k = some v := by
  induction l with
  | nil => simp [dinsert, dlookup]
  | cons p rest ih =>
      by_cases h : p.1 = k
      · simp [dinsert, dlookup, h]
      · simp [dinsert, dlookup, h, ih]

theorem dlookup_dinsert_ne {κ α : Type} [DecidableEq κ]
    (l : List (κ × α)) (k k' : κ) (v : α) (h : k' ≠ k) :
    dlookup (dinsert l k v) k' = dlookup l k' := by
  induction l with
  | nil => simp [dinsert, dlookup, Ne.symm h]
  | cons p rest ih =>
      obtain ⟨pk, pv⟩ := p
      by_cases hk : pk = k
      · subst hk
        simp [dinsert, dlookup, Ne.symm h]
      · simp [dinsert, dlookup, hk, ih]

theorem dlookup_derase_self {κ α : Type} [DecidableEq κ]
    (l : List (κ × α)) (k : κ) : dlookup (derase l k) k = none := by
  induction l with
  | nil => simp [derase, dlookup]
  | cons p rest ih =>
      by_cases h : p.1 = k
      · simp [derase, dlookup, h, ih]
      · simp [derase, dlookup, h, ih]

theorem dlookup_derase_ne {κ α : Type} [DecidableEq κ]
    (l : List (κ × α)) (k k' : κ) (h : k' ≠ k) :
    dlookup (derase l k) k' = dlookup l k' := by
  induction l with
  | nil => simp [derase]
  | cons p rest ih =>
      obtain ⟨pk, pv⟩ := p
      by_cases hk : pk = k
      · subst hk
        simp [derase, dlookup, Ne.symm h, ih]
      · simp [derase, dlookup, hk, ih]

theorem countKey_dinsert_self {κ α : Type} [DecidableEq κ]
    (l : List (κ × α)) (k : κ) (v : α) (h : countKey l k ≤ 1) :
    countKey (dinsert l k v) k = 1 := by
  induction l with
  | nil => simp [dinsert, countKey]
  | cons p rest ih =>
      by_cases hk : p.1 = k
      · simp [countKey, hk] at h
        simp [dinsert, hk, countKey]
        omega
      · simp [countKey, hk] at h
        simp [dinsert, hk, countKey, ih h]

theorem countKey_dinsert_ne {κ α : Type} [DecidableEq κ]
    (l : List (κ × α)) (k k' : κ) (v : α) (h : k' ≠ k) :
    countKey (dinsert l k v) k' = countKey l k' := by
  induction l with
  | nil => simp [dinsert, countKey, Ne.symm h]
  | cons p rest ih =>
      obtain ⟨pk, pv⟩ := p
      by_cases hk : pk = k
      · subst hk
        simp [dinsert, countKey, Ne.symm h]
      · simp [dinsert, hk, countKey, ih]

theorem countKey_derase_self {κ α : Type} [DecidableEq κ]
    (l : List (κ × α)) (k : κ) : countKey (derase l k) k = 0 := by
  induction l with
  | nil => simp [derase, countKey]
  | cons p rest ih =>
      by_cases h : p.1 = k
      · simp [derase, h, ih]
      · simp [derase, h, countKey, ih]

theorem countKey_derase_ne {κ α : Type} [DecidableEq κ]
    (l : List (κ × α)) (k k' : κ) (h : k' ≠ k) :
    countKey (derase l k) k' = countKey l k' := by
  induction l with
  | nil => simp [derase]
  | cons p rest ih =>
      obtain ⟨pk, pv⟩ := p
      by_cases hk : pk = k
      · subst hk
        simp [derase, countKey, Ne.symm h, ih]
      · simp [derase, hk, countKey, ih]

theorem poolGet_poolAppend_self
    (l : List ((String × String) × List Obj)) (k : String × String) (x : Obj) :
    (dlookup (poolAppend l k x) k).getD [] = (dlookup l k).getD [] ++ [x] := by
  induction l with
  | nil => simp [poolAppend, dlookup]
  | cons p rest ih =>
      by_cases h : p.1 = k
      · simp [poolAppend, dlookup, h]
      · simp [poolAppend, dlookup, h, ih]

/-!  Reduction helpers for `drop`.  -/

theorem drop_present (st : RefCounter) (o : Obj) (c : Int)
    (h : dlookup st.references o.oid = some c) :
    drop st o =
      { st with
        events := st.events ++ [Event.dropped o.oid o.size o.type_tag]
        memory_usage := st.memory_usage - (o.size : Int)
        references := derase st.references o.oid
        objects := derase st.objects o.oid
        memory_pool := poolAppend st.memory_pool (o.type_tag, size_category o.size) o } := by
  unfold drop
  rw [h]

theorem drop_absent (st : RefCounter) (o : Obj)
    (h : dlookup st.references o.oid = none) : drop st o = st := by
  unfold drop
  rw [h]

/-!
The inductive well-formedness invariant over reachable states: the two
live tables carry the same keys, every stored reference count is at
least 1, and each table holds at most one entry per key (dict semantics).
-/

def WF (st : RefCounter) : Prop :=
  (∀ k, (dlookup st.references k).isSome ↔ (dlookup st.objects k).isSome) ∧
  (∀ k c, dlookup st.references k = some c → 1 ≤ c) ∧
  (∀ k, countKey st.references k ≤ 1 ∧ countKey st.objects k ≤ 1)

theorem wf_initRC : WF initRC := by
  refine ⟨?_, ?_, ?_⟩ <;> intro k <;> simp [initRC, dlookup, countKey]

theorem wf_allocate (st : RefCounter) (o : Obj) (h : WF st) : WF (allocate st o) := by
  obtain ⟨h1, h2, h3⟩ := h
  refine ⟨?_, ?_, ?_⟩
  · intro k
    by_cases hk : k = o.oid
    · subst hk
      simp [allocate, dlookup_dinsert_self]
    · simp only [allocate]
      rw [dlookup_dinsert_ne _ _ _ _ hk, dlookup_dinsert_ne _ _ _ _ hk]
      exact h1 k
  · intro k c hkc
    by_cases hk : k = o.oid
    · subst hk
      simp only [allocate] at hkc
      rw [dlookup_dinsert_self] at hkc
      simp only [Option.some.injEq] at hkc
      omega
    · simp only [allocate] at hkc
      rw [dlookup_dinsert_ne _ _ _ _ hk] at hkc
      exact h2 k c hkc
  · intro k
    by_cases hk : k = o.oid
    · subst hk
      constructor
      · simp only [allocate]
        rw [countKey_dinsert_self _ _ _ (h3 o.oid).1]
      · simp only [allocate]
        rw [countKey_dinsert_self _ _ _ (h3 o.oid).2]
    · constructor
      · simp only [allocate]
        rw [countKey_dinsert_ne _ _ _ _ hk]
        exact (h3 k).1
      · simp only [allocate]
        rw [countKey_dinsert_ne _ _ _ _ hk]
        exact (h3 k).2

theorem wf_increase_ref (st : RefCounter) (o : Obj) (h : WF st) :
    WF (increase_ref st o) := by
  obtain ⟨h1, h2, h3⟩ := h
  unfold increase_ref
  cases hc : dlookup st.references o.oid with
  | none => exact ⟨h1, h2, h3⟩
  | some c =>
      refine ⟨?_, ?_, ?_⟩
      · intro k
        by_cases hk : k = o.oid
        · subst hk
          rw [dlookup_dinsert_self]
          have := (h1 o.oid).mp (by simp [hc])
          simp [this]
        · rw [dlookup_dinsert_ne _ _ _ _ hk]
          exact h1 k
      · intro k c' hkc
        by_cases hk : k = o.oid
        · subst hk
          rw [dlookup_dinsert_self] at hkc
          simp only [Option.some.injEq] at hkc
          have := h2 o.oid c hc
          omega
        · rw [dlookup_dinsert_ne _ _ _ _ hk] at hkc
          exact h2 k c' hkc
      · intro k
        by_cases hk : k = o.oid
        · subst hk
          exact ⟨by rw [countKey_dinsert_self _ _ _ (h3 o.oid).1], (h3 o.oid).2⟩
        · exact ⟨by rw [countKey_dinsert_ne _ _ _ _ hk]; exact (h3 k).1, (h3 k).2⟩

theorem wf_drop (st : RefCounter) (o : Obj) (h : WF st) : WF (drop st o) := by
  obtain ⟨h1, h2, h3⟩ := h
  cases hc : dlookup st.references o.oid with
  | none => rw [drop_absent st o hc]; exact ⟨h1, h2, h3⟩
  | some c =>
      rw [drop_present st o c hc]
      refine ⟨?_, ?_, ?_⟩
      · intro k
        by_cases hk : k = o.oid
        · subst hk
          simp [dlookup_derase_self]
        · simp only []
          rw [dlookup_derase_ne _ _ _ hk, dlookup_derase_ne _ _ _ hk]
          exact h1 k
      · intro k c' hkc
        by_cases hk : k = o.oid
        · subst hk
          rw [dlookup_derase_self] at hkc
          exact absurd hkc (by simp)
        · rw [dlookup_derase_ne _ _ _ hk] at hkc
          exact h2 k c' hkc
      · intro k
        by_cases hk : k = o.oid
        · subst hk
          simp [countKey_derase_self]
        · constructor
          · rw [countKey_derase_ne _ _ _ hk]
            exact (h3 k).1
          · rw [countKey_derase_ne _ _ _ hk]
            exact (h3 k).2

theorem wf_decrease_ref (st : RefCounter) (o : Obj) (h : WF st) :
    WF (decrease_ref st o) := by
  obtain ⟨h1, h2, h3⟩ := h
  unfold decrease_ref
  cases hc : dlookup st.references o.oid with
  | none => exact ⟨h1, h2, h3⟩
  | some c =>
      simp only []
      by_cases hz : c - 1 = 0
      · rw [if_pos hz]
        rw [drop_present _ o (c - 1) (by rw [dlookup_dinsert_self])]
        refine ⟨?_, ?_, ?_⟩
        · intro k
          by_cases hk : k = o.oid
          · subst hk
            simp [dlookup_derase_self]
          · simp only []
            rw [dlookup_derase_ne _ _ _ hk, dlookup_derase_ne _ _ _ hk,
              dlookup_dinsert_ne _ _ _ _ hk]
            exact h1 k
        · intro k c' hkc
          by_cases hk : k = o.oid
          · subst hk
            rw [dlookup_derase_self] at hkc
            exact absurd hkc (by simp)
          · rw [dlookup_derase_ne _ _ _ hk, dlookup_dinsert_ne _ _ _ _ hk] at hkc
            exact h2 k c' hkc
        · intro k
          by_cases hk : k = o.oid
          · subst hk
            simp [countKey_derase_self]
          · constructor
            · rw [countKey_derase_ne _ _ _ hk, countKey_dinsert_ne _ _ _ _ hk]
              exact (h3 k).1
            · rw [countKey_derase_ne _ _ _ hk]
              exact (h3 k).2
      · rw [if_neg hz]
        refine ⟨?_, ?_, ?_⟩
        · intro k
          by_cases hk : k = o.oid
          · subst hk
            rw [dlookup_dinsert_self]
            have := (h1 o.oid).mp (by simp [hc])
            simp [this]
          · rw [dlookup_dinsert_ne _ _ _ _ hk]
            exact h1 k
        · intro k c' hkc
          by_cases hk : k = o.oid
          · subst hk
            rw [dlookup_dinsert_self] at hkc
            simp only [Option.some.injEq] at hkc
            have := h2 o.oid c hc
            omega
          · rw [dlookup_dinsert_ne _ _ _ _ hk] at hkc
            exact h2 k c' hkc
        · intro k
          by_cases hk : k = o.oid
          · subst hk
            exact ⟨by rw [countKey_dinsert_self _ _ _ (h3 o.oid).1], (h3 o.oid).2⟩
          · exact ⟨by rw [countKey_dinsert_ne _ _ _ _ hk]; exact (h3 k).1, (h3 k).2⟩

theorem wf_reuse (st : RefCounter) (t : Option String) (m : Nat) (h : WF st) :
    WF ((reuse st t m).1) := by
  unfold reuse
  cases hs : reuseScan st.memory_pool t (size_category m) with
  | none => exact ⟨h.1, h.2.1, h.2.2⟩
  | some pr =>
      obtain ⟨pool', obj⟩ := pr
      have hst1 : WF { st with memory_pool := pool' } := ⟨h.1, h.2.1, h.2.2⟩
      have hst2 := wf_allocate _ obj hst1
      exact ⟨hst2.1, hst2.2.1, hst2.2.2⟩

theorem wf_applyOp (st : RefCounter) (op : Op) (h : WF st) : WF (applyOp st op) := by
  cases op with
  | alloc o => exact wf_allocate st o h
  | incRef o => exact wf_increase_ref st o h
  | decRef o => exact wf_decrease_ref st o h
  | dropIt o => exact wf_drop st o h
  | reuseIt t m => exact wf_reuse st t m h
  | getUsage => exact ⟨h.1, h.2.1, h.2.2⟩

theorem run_preserve (P : RefCounter → Prop) (h0 : P initRC)
    (hs : ∀ st op, P st → P (applyOp st op)) : ∀ ops, P (run ops) := by
  have key : ∀ ops st, P st → P (List.foldl applyOp st ops) := by
    intro ops
    induction ops with
    | nil => intro st h; exact h
    | cons op rest ih => intro st h; exact ih _ (hs st op h)
  exact fun ops => key ops initRC h0

theorem wf_run (ops : List Op) : WF (run ops) :=
  run_preserve WF wf_initRC wf_applyOp ops

theorem decrease_ref_present (st : RefCounter) (o : Obj) (c : Int)
    (h : dlookup st.references o.oid = some c) :
    decrease_ref st o =
      (if c - 1 = 0 then
        drop { st with
               references := dinsert st.references o.oid (c - 1)
               events := st.events ++ [Event.refDecreased o.oid (c - 1)] } o
      else
        { st with
          references := dinsert st.references o.oid (c - 1)
          events := st.events ++ [Event.refDecreased o.oid (c - 1)] }) := by
  unfold decrease_ref
  rw [h]

/-!  Sample objects used for concrete evaluations. -/

/-- A dict-typed object whose size 232 categorizes as `"medium"`. -/
def objMedium : Obj := { oid := 1, type_tag := "dict", size := 232 }

/-- A dict-typed object whose size 64 categorizes as `"small"`. -/
def objSmall : Obj := { oid := 2, type_tag := "dict", size := 64 }

/-- A dict-typed object of size 64 used for the round-trip evaluation. -/
def objRT : Obj := { oid := 3, type_tag := "dict", size := 64 }

/-!  Claim theorems.  -/

/-- Claim C1: the claim states that `reuse` takes objects exactly from
buckets whose size category is `≥` the requested one under
`Small < Medium < Large`, and in particular that after dropping a
Medium `"dict"` object, `reuse(desired_type="dict", min_size=50)`
returns it.  The code instead compares the category *names* with
Python string `>=`, which orders them `"large" < "medium" < "small"`
lexicographically — the reverse of the intended ordering.  Evaluating
the code: the Medium-bucket scenario returns `None`, and dually a
Small bucket wrongly satisfies `min_size=500` (category Medium). -/
theorem reuse_category_comparison_is_lexicographic :
    (reuse (drop (allocate initRC objMedium) objMedium) (some "dict") 50).2 = none ∧
    (reuse (drop (allocate initRC objSmall) objSmall) (some "dict") 500).2 = some objSmall := by
  decide

/-- Claim C2: the claim states `memory_usage` equals the sum of live
object sizes in every reachable state, including after a double
`allocate` of a live identity.  Evaluating the code at
`allocate(x); allocate(x)` with `size_of(x) = 64`: `memory_usage`
is double-counted to 128 while the live-object table sums to 64. -/
theorem allocate_twice_double_counts :
    (run [Op.alloc objSmall, Op.alloc objSmall]).memory_usage = 128 ∧
    liveSum (run [Op.alloc objSmall, Op.alloc objSmall]) = 64 ∧
    (run [Op.alloc objSmall, Op.alloc objSmall]).memory_usage ≠
      liveSum (run [Op.alloc objSmall, Op.alloc objSmall]) := by
  decide

/-- Claim C3: the claim states that every operation completes — in
particular that a `decrease_ref` reaching zero (which invokes `drop`
while the lock is held) and a `reuse` finding a candidate (which
invokes `allocate` while the lock is held) do not deadlock.  The code
uses a non-reentrant `threading.Lock`, so both calls block forever in
the inner `with self.lock`: evaluated under the explicit lock model,
both paths yield `LockResult.blocked`. -/
theorem reentrant_lock_acquisition_blocks :
    decreaseRefLocked false (allocate initRC objSmall) objSmall = LockResult.blocked ∧
    reuseLocked false (drop (allocate initRC objSmall) objSmall) (some "dict") 0 =
      LockResult.blocked := by
  decide

/-- Claim C4: the claim states that a `decrease_ref` decrementing a
count to exactly zero invokes `drop` in the same step, so by the time
the call returns the entry is gone from both tables and a stored count
of zero is never left behind.  Evaluating the code: the call blocks
forever inside `drop`'s `with self.lock` (the lock is non-reentrant)
immediately after the decrement, so it never returns, and shared
memory permanently holds the entry at count 0 in the reference table
with the object still in the live-object table — nothing is ever
removed. -/
theorem decrease_to_zero_wedges_with_zero_count :
    decreaseRefLocked false (allocate initRC objMedium) objMedium = LockResult.blocked ∧
    dlookup (decreaseRefSharedAtBlock (allocate initRC objMedium) objMedium).references
      objMedium.oid = some 0 ∧
    dlookup (decreaseRefSharedAtBlock (allocate initRC objMedium) objMedium).objects
      objMedium.oid = some objMedium := by
  decide

/-- Claim C5: the claim states that for an untracked `x`, the sequence
`allocate(x); decrease_ref(x)` removes `x` from both live tables,
appends `x` to the bucket `(type_tag(x), size_category(size_of(x)))`,
and restores `memory_usage`.  Evaluating the code: the `decrease_ref`
blocks forever in `drop`'s `with self.lock` before any of those
effects — at the wedge point `memory_usage` still carries the full
size, the bucket is still empty, and `x` is still in the live-object
table. -/
theorem round_trip_deadlocks_before_reclaim :
    decreaseRefLocked false (allocate initRC objRT) objRT = LockResult.blocked ∧
    (decreaseRefSharedAtBlock (allocate initRC objRT) objRT).memory_usage =
      (objRT.size : Int) ∧
    poolGet (decreaseRefSharedAtBlock (allocate initRC objRT) objRT)
      (objRT.type_tag, size_category objRT.size) = [] ∧
    dlookup (decreaseRefSharedAtBlock (allocate initRC objRT) objRT).objects
      objRT.oid = some objRT := by
  decide

/-- Claim C6: calling `increase_ref` or `decrease_ref` on an identity
absent from the reference table changes nothing except appending one
`NotAllocated` report to the event log, and returns normally. -/
theorem absent_guard_no_mutation (st : RefCounter) (x : Obj)
    (h : dlookup st.references x.oid = none) :
    increase_ref st x = { st with events := st.events ++ [Event.notAllocated x.oid] } ∧
    decrease_ref st x = { st with events := st.events ++ [Event.notAllocated x.oid] } := by
  constructor
  · unfold increase_ref
    rw [h]
  · unfold decrease_ref
    rw [h]

/-- Witness for C6 at a concrete input. -/
theorem absent_guard_no_mutation_witness :
    increase_ref initRC objSmall =
      { initRC with events := initRC.events ++ [Event.notAllocated objSmall.oid] } ∧
    decrease_ref initRC objSmall =
      { initRC with events := initRC.events ++ [Event.notAllocated objSmall.oid] } :=
  absent_guard_no_mutation initRC objSmall (by decide)

/-- Counterexample for C7: the claim states that `drop` on an absent
identity emits a `NotAllocated`-class report.  Evaluating the code:
`drop` on the fresh manager (identities all absent) leaves the state —
including its event log — completely unchanged; no report of any kind
is emitted (the source's `drop` has no `else` branch). -/
theorem drop_absent_emits_nothing :
    drop initRC objSmall = initRC ∧ (drop initRC objSmall).events = [] := by
  decide

/-- Claim C7 (amended): `drop` on an identity absent from the live
tables performs no mutation of any table, the free pool or
`memory_usage`, and emits no report at all. -/
theorem drop_absent_is_silent_noop (st : RefCounter) (x : Obj)
    (h : dlookup st.references x.oid = none) : drop st x = st :=
  drop_absent st x h

/-- Witness for the amended C7 at a concrete input. -/
theorem drop_absent_is_silent_noop_witness :
    drop (allocate initRC objSmall) objMedium = allocate initRC objSmall :=
  drop_absent_is_silent_noop (allocate initRC objSmall) objMedium (by decide)

/-- Counterexample for C8: the claim states every guard-rejection —
explicitly including a `drop` call on an absent identity — emits
exactly one structured event.  Evaluating the code: a `drop` call on
an identity that was never allocated is a guard-rejection that emits
no event at all (the event log is unchanged). -/
theorem drop_guard_rejection_emits_no_event :
    (drop (allocate initRC objSmall) objMedium).events.length =
      (allocate initRC objSmall).events.length := by
  decide

/-- Claim C8 (amended): each completed call emits exactly one event,
synchronously, before it returns — `allocate`, `increase_ref` (both
branches), a `decrease_ref` that does not reach zero or hits an absent
identity, a `drop` on a present identity, and an unsuccessful `reuse`
— with one exception: a `drop` on an absent identity completes and
emits no event.  The two remaining paths the claim singles out never
return at all: a `decrease_ref` reaching zero emits its one
`RefDecreased` event and then blocks forever inside the internal
`drop`, and a `reuse` that finds a candidate emits no event and blocks
forever inside the internal `allocate`. -/
theorem event_emission_per_path :
    (∀ st x, (allocate st x).events = st.events ++ [Event.allocated x.oid x.size]) ∧
    (∀ st x c, dlookup st.references x.oid = some c →
      (increase_ref st x).events = st.events ++ [Event.refIncreased x.oid (c + 1)]) ∧
    (∀ st x, dlookup st.references x.oid = none →
      (increase_ref st x).events = st.events ++ [Event.notAllocated x.oid]) ∧
    (∀ st x c, dlookup st.references x.oid = some c → c - 1 ≠ 0 →
      (decrease_ref st x).events = st.events ++ [Event.refDecreased x.oid (c - 1)]) ∧
    (∀ st x, dlookup st.references x.oid = some 1 →
      decreaseRefLocked false st x = LockResult.blocked ∧
      (decreaseRefSharedAtBlock st x).events =
        st.events ++ [Event.refDecreased x.oid 0]) ∧
    (∀ st x, dlookup st.references x.oid = none →
      (decrease_ref st x).events = st.events ++ [Event.notAllocated x.oid]) ∧
    (∀ st x c, dlookup st.references x.oid = some c →
      (drop st x).events = st.events ++ [Event.dropped x.oid x.size x.type_tag]) ∧
    (∀ st x, dlookup st.references x.oid = none → (drop st x).events = st.events) ∧
    (∀ st t m pr, reuseScan st.memory_pool t (size_category m) = some pr →
      reuseLocked false st t m = LockResult.blocked ∧
      (reuseSharedAtBlock st t m).events = st.events) ∧
    (∀ st t m st', reuse st t m = (st', none) →
      st'.events = st.events ++ [Event.noReuseCandidate]) := by
  refine ⟨?_, ?_, ?_, ?_, ?_, ?_, ?_, ?_, ?_, ?_⟩
  · intro st x
    rfl
  · intro st x c h
    unfold increase_ref
    rw [h]
  · intro st x h
    unfold increase_ref
    rw [h]
  · intro st x c h hne
    rw [decrease_ref_present st x c h, if_neg hne]
  · intro st x h
    constructor
    · unfold decreaseRefLocked
      rw [h]
      norm_num [dropLocked]
    · unfold decreaseRefSharedAtBlock
      rw [h]
      norm_num
  · intro st x h
    unfold decrease_ref
    rw [h]
  · intro st x c h
    rw [drop_present st x c h]
  · intro st x h
    rw [drop_absent st x h]
  · intro st t m pr hs
    obtain ⟨pool', obj⟩ := pr
    constructor
    · unfold reuseLocked
      rw [hs]
      rfl
    · unfold reuseSharedAtBlock
      rw [hs]
  · intro st t m st' h
    unfold reuse at h
    cases hs : reuseScan st.memory_pool t (size_category m) with
    | none =>
        rw [hs] at h
        injection h with h1 h2
        subst h1
        rfl
    | some pr =>
        obtain ⟨pool', obj⟩ := pr
        rw [hs] at h
        simp at h

/-- Witness for the amended C8 at a concrete input. -/
theorem event_emission_per_path_witness :
    (decreaseRefLocked false (allocate initRC objSmall) objSmall = LockResult.blocked ∧
     (decreaseRefSharedAtBlock (allocate initRC objSmall) objSmall).events =
       (allocate initRC objSmall).events ++ [Event.refDecreased objSmall.oid 0]) :=
  event_emission_per_path.2.2.2.2.1 (allocate initRC objSmall) objSmall (by decide)

/-- Claim C9: in every reachable state, an identity is present in the
reference table iff it is present in the live-object table. -/
theorem tables_carry_same_keys (ops : List Op) (oid : Nat) :
    (dlookup (run ops).references oid).isSome ↔ (dlookup (run ops).objects oid).isSome :=
  (wf_run ops).1 oid

/-- Claim C10: re-`allocate` on an identity already present in the
reference table overwrites the count to exactly 1, leaves a single
entry for the identity in each live table, and adds `size_of(object)`
to `memory_usage` a second time.  (The other source file,
`memory_manager.py`, has a textually identical `allocate` body.) -/
theorem reallocate_overwrites_count (ops : List Op) (x : Obj) (c : Int)
    (h : dlookup (run ops).references x.oid = some c) :
    dlookup (allocate (run ops) x).references x.oid = some 1 ∧
    countKey (allocate (run ops) x).references x.oid = 1 ∧
    countKey (allocate (run ops) x).objects x.oid = 1 ∧
    (allocate (run ops) x).memory_usage = (run ops).memory_usage + (x.size : Int) := by
  refine ⟨?_, ?_, ?_, rfl⟩
  · simp only [allocate]
    rw [dlookup_dinsert_self]
  · simp only [allocate]
    rw [countKey_dinsert_self _ _ _ ((wf_run ops).2.2 x.oid).1]
  · simp only [allocate]
    rw [countKey_dinsert_self _ _ _ ((wf_run ops).2.2 x.oid).2]

/-- Witness for C10 at a concrete input. -/
theorem reallocate_overwrites_count_witness :
    dlookup (allocate (run [Op.alloc objSmall]) objSmall).references objSmall.oid = some 1 ∧
    countKey (allocate (run [Op.alloc objSmall]) objSmall).references objSmall.oid = 1 ∧
    countKey (allocate (run [Op.alloc objSmall]) objSmall).objects objSmall.oid = 1 ∧
    (allocate (run [Op.alloc objSmall]) objSmall).memory_usage =
      (run [Op.alloc objSmall]).memory_usage + (objSmall.size : Int) :=
  reallocate_overwrites_count [Op.alloc objSmall] objSmall 1 (by decide)

end PerceusMM
